import Mathlib

/-!
Verification of the task-maker local execution worker.

Shallow embedding of:
- `src/cpp/executor/local_executor.cpp` (`LocalExecutor::Execute`,
  `PrepareFile`, `RetrieveFile`, `MaybeRequestFile`, `ThreadGuard`),
- `src/manager/event_queue.cpp` (`EventQueue`),
- `src/cpp/util/ipc.hpp` (`SharedQueue`).

Machine floating point values (proto `float` fields, C++ `double`) are
modelled as rationals; sizes and counters as naturals; the process-wide
admission counter as an integer so that its non-negativity is a statement
rather than a convention of the carrier type.
-/

namespace TaskMaker

/-- Status enum of `proto::Response` (proto/response.proto). -/
inductive Status where
  | SUCCESS
  | SIGNAL
  | NONZERO
  | TIME_LIMIT
  | MEMORY_LIMIT
  | MISSING_FILES
  | INTERNAL_ERROR
deriving DecidableEq, Repr

/-- File type enum of `proto::FileInfo`. -/
inductive FileType where
  | USER
  | STDIN
  | STDOUT
  | STDERR
deriving DecidableEq, Repr

/-- One `proto::FileInfo` entry: a named file identified by a content hash.
The SHA-256 digest is modelled as an opaque natural number. -/
structure FileInfo where
  name : String
  type : FileType
  hash : Nat
  executable : Bool
  hasContents : Bool
deriving DecidableEq, Repr

/-- Resource limits of `proto::Request` (`resource_limit` message):
times in seconds, sizes in KiB; `0` means "no limit". -/
structure ResourceLimit where
  cpu_time : ℚ
  wall_time : ℚ
  memory : ℕ
  nfiles : ℕ
  processes : ℕ
  fsize : ℕ
  mlock : ℕ
  stack : ℕ
deriving DecidableEq, Repr

/-- One execution request (`proto::Request`). -/
structure Request where
  executable : String
  args : List String
  input : List FileInfo
  output : List FileInfo
  resource_limit : ResourceLimit
  fifo_size : ℕ
  exclusive : Bool
  keep_sandbox : Bool
deriving DecidableEq, Repr

/-- Sandbox result (`sandbox::ExecutionInfo`): times in milliseconds. -/
structure ExecutionInfo where
  cpu_time_millis : ℚ
  sys_time_millis : ℚ
  wall_time_millis : ℚ
  memory_usage_kb : ℕ
  status_code : ℕ
  signal : ℕ
  message : String
deriving DecidableEq, Repr

/-- Resource usage reported in `proto::Response`: times in seconds. -/
structure ResourceUsage where
  cpu_time : ℚ
  sys_time : ℚ
  wall_time : ℚ
  memory : ℕ
deriving DecidableEq, Repr

/-- Response of one execution (`proto::Response`). -/
structure Response where
  resource_usage : ResourceUsage
  status : Status
  status_code : ℕ
  signal : ℕ
  error_message : String
  output : List FileInfo
deriving DecidableEq, Repr

/-- Resource-usage conversion performed by `LocalExecutor::Execute`
(local_executor.cpp:102-108): millisecond times divided by 1000.0,
memory passed through in KiB. -/
def mkUsage (info : ExecutionInfo) : ResourceUsage :=
  { cpu_time := info.cpu_time_millis / 1000
    sys_time := info.sys_time_millis / 1000
    wall_time := info.wall_time_millis / 1000
    memory := info.memory_usage_kb }

/-- Termination-status classification of `LocalExecutor::Execute`
(local_executor.cpp:110-136): the if/else-if chain computing
`response.status` and `response.error_message` from the request's
resource limits and the sandbox `ExecutionInfo`. -/
def classifyStatus (limit : ResourceLimit) (info : ExecutionInfo) :
    Status × String :=
  let usage := mkUsage info
  if limit.memory ≠ 0 ∧ usage.memory ≥ limit.memory then
    (Status.MEMORY_LIMIT, "Memory limit exceeded")
  else if limit.cpu_time ≠ 0 ∧ usage.sys_time + usage.cpu_time ≥ limit.cpu_time then
    (Status.TIME_LIMIT, "CPU limit exceeded")
  else if limit.wall_time ≠ 0 ∧ usage.wall_time ≥ limit.wall_time then
    (Status.TIME_LIMIT, "Wall limit exceeded")
  else if info.signal ≠ 0 then
    (Status.SIGNAL, info.message)
  else if info.status_code ≠ 0 then
    (Status.NONZERO, info.message)
  else
    (Status.SUCCESS, "")

/-- Specification-side classification, transcribed from the spec's words
(spec §4.4 step 10 and claim C1): first matching rule of the strict order
memory, cpu, wall, signal, nonzero, success, with the cpu rule reading
`cpu_time + sys_time ≥ request.cpu_time`. -/
def classifySpec (limit : ResourceLimit) (info : ExecutionInfo) :
    Status × String :=
  let usage := mkUsage info
  if limit.memory ≠ 0 ∧ usage.memory ≥ limit.memory then
    (Status.MEMORY_LIMIT, "Memory limit exceeded")
  else if limit.cpu_time ≠ 0 ∧ usage.cpu_time + usage.sys_time ≥ limit.cpu_time then
    (Status.TIME_LIMIT, "CPU limit exceeded")
  else if limit.wall_time ≠ 0 ∧ usage.wall_time ≥ limit.wall_time then
    (Status.TIME_LIMIT, "Wall limit exceeded")
  else if info.signal ≠ 0 then
    (Status.SIGNAL, info.message)
  else if info.status_code ≠ 0 then
    (Status.NONZERO, info.message)
  else
    (Status.SUCCESS, "")

/-- Sandbox execution options (`sandbox::ExecutionOptions`), as populated
by `LocalExecutor::Execute` (local_executor.cpp:47-62,78-80). Field types
follow the spec's adapter contract (§4.5), with rationals for the
floating-point limit computations. -/
structure ExecutionOptions where
  root : String
  executable : String
  args : List String := []
  cpu_limit_millis : ℚ := 0
  wall_limit_millis : ℚ := 0
  memory_limit_kb : ℚ := 0
  max_files : ℕ := 0
  max_procs : ℕ := 0
  max_file_size_kb : ℕ := 0
  max_mlock_kb : ℕ := 0
  max_stack_kb : ℕ := 0
  stdin_file : String := ""
  stdout_file : String := ""
  stderr_file : String := ""
deriving DecidableEq, Repr

/-- Options assembly of `LocalExecutor::Execute` (local_executor.cpp:48-62):
`cpu_limit_millis = cpu_time * 1200`, `wall_limit_millis = wall_time * 1200`,
`memory_limit_kb = memory * 1.2`, the remaining caps passed as requested. -/
def mkExecOptions (req : Request) (sandbox_dir : String) : ExecutionOptions :=
  { root := sandbox_dir
    executable := req.executable
    args := req.args
    cpu_limit_millis := req.resource_limit.cpu_time * 1200
    wall_limit_millis := req.resource_limit.wall_time * 1200
    memory_limit_kb := (req.resource_limit.memory : ℚ) * (12 / 10)
    max_files := req.resource_limit.nfiles
    max_procs := req.resource_limit.processes
    max_file_size_kb := req.resource_limit.fsize
    max_mlock_kb := req.resource_limit.mlock
    max_stack_kb := req.resource_limit.stack }

/-- Response assembly of `LocalExecutor::Execute` (local_executor.cpp:99-136):
resource usage converted to seconds, termination status classified against
the request's (unscaled) resource limits. The output list is filled later
by `RetrieveFile`. -/
def mkResponse (req : Request) (info : ExecutionInfo) : Response :=
  { resource_usage := mkUsage info
    status := (classifyStatus req.resource_limit info).1
    status_code := info.status_code
    signal := info.signal
    error_message := (classifyStatus req.resource_limit info).2
    output := [] }

/-- Claim C1: the response status is computed by the first matching rule of
the strict order memory, cpu, wall, signal, nonzero, success, with `≥`
comparisons and a zero limit never attributed; memory usage exactly equal
to the limit triggers `MEMORY_LIMIT`. -/
theorem C1_classification_order :
    (∀ limit info, classifyStatus limit info = classifySpec limit info) ∧
    (∀ limit info, limit.memory = 0 →
      (classifyStatus limit info).1 ≠ Status.MEMORY_LIMIT) ∧
    (∀ limit info, limit.cpu_time = 0 →
      classifyStatus limit info ≠ (Status.TIME_LIMIT, "CPU limit exceeded")) ∧
    (∀ limit info, limit.wall_time = 0 →
      classifyStatus limit info ≠ (Status.TIME_LIMIT, "Wall limit exceeded")) ∧
    (∀ limit info, limit.memory ≠ 0 → info.memory_usage_kb = limit.memory →
      classifyStatus limit info = (Status.MEMORY_LIMIT, "Memory limit exceeded")) := by
  refine ⟨?_, ?_, ?_, ?_, ?_⟩
  · intro limit info
    have h : (mkUsage info).sys_time + (mkUsage info).cpu_time =
        (mkUsage info).cpu_time + (mkUsage info).sys_time := add_comm _ _
    simp only [classifyStatus, classifySpec, h]
  · intro limit info h
    simp only [classifyStatus]
    split_ifs with h1 h2 h3 h4 h5 <;> simp_all
  · intro limit info h
    simp only [classifyStatus]
    split_ifs with h1 h2 h3 h4 h5 <;> simp_all
  · intro limit info h
    simp only [classifyStatus]
    split_ifs with h1 h2 h3 h4 h5 <;> simp_all
  · intro limit info h h'
    simp only [classifyStatus]
    rw [if_pos]
    exact ⟨h, by simp [mkUsage, h']⟩

/-- Concrete instantiation of the hypotheses of `C1_classification_order`. -/
theorem C1_classification_order_witness :
    (classifyStatus ⟨0, 0, 0, 0, 0, 0, 0, 0⟩ ⟨0, 0, 0, 5, 0, 0, ""⟩).1 ≠
        Status.MEMORY_LIMIT ∧
    classifyStatus ⟨0, 0, 0, 0, 0, 0, 0, 0⟩ ⟨5000, 0, 0, 0, 0, 0, ""⟩ ≠
        (Status.TIME_LIMIT, "CPU limit exceeded") ∧
    classifyStatus ⟨0, 0, 0, 0, 0, 0, 0, 0⟩ ⟨0, 0, 5000, 0, 0, 0, ""⟩ ≠
        (Status.TIME_LIMIT, "Wall limit exceeded") ∧
    classifyStatus ⟨0, 0, 64, 0, 0, 0, 0, 0⟩ ⟨0, 0, 0, 64, 0, 0, ""⟩ =
        (Status.MEMORY_LIMIT, "Memory limit exceeded") :=
  ⟨C1_classification_order.2.1 _ _ rfl,
   C1_classification_order.2.2.1 _ _ rfl,
   C1_classification_order.2.2.2.1 _ _ rfl,
   C1_classification_order.2.2.2.2 _ _ (by decide) rfl⟩

/-- Claim C6: the sandbox receives the CPU and wall limits in milliseconds
scaled by 1.2 (seconds × 1200), the memory limit scaled by 1.2, and nfiles,
processes, fsize, mlock and stack exactly as requested; classification
compares usage against the original unscaled limits, and there are runs the
scaled limit would not flag that are still classified as limit-exceeded. -/
theorem C6_limit_scaling :
    (∀ req dir,
      (mkExecOptions req dir).cpu_limit_millis =
          req.resource_limit.cpu_time * 1000 * (6 / 5) ∧
      (mkExecOptions req dir).wall_limit_millis =
          req.resource_limit.wall_time * 1000 * (6 / 5) ∧
      (mkExecOptions req dir).memory_limit_kb =
          (req.resource_limit.memory : ℚ) * (6 / 5) ∧
      (mkExecOptions req dir).max_files = req.resource_limit.nfiles ∧
      (mkExecOptions req dir).max_procs = req.resource_limit.processes ∧
      (mkExecOptions req dir).max_file_size_kb = req.resource_limit.fsize ∧
      (mkExecOptions req dir).max_mlock_kb = req.resource_limit.mlock ∧
      (mkExecOptions req dir).max_stack_kb = req.resource_limit.stack) ∧
    (∀ req info,
      ((mkResponse req info).status, (mkResponse req info).error_message) =
        classifyStatus req.resource_limit info) ∧
    (∃ limit info, (classifyStatus limit info).1 = Status.TIME_LIMIT ∧
      (mkUsage info).sys_time + (mkUsage info).cpu_time <
        limit.cpu_time * (6 / 5)) := by
  refine ⟨?_, ?_, ?_⟩
  · intro req dir
    refine ⟨?_, ?_, ?_, rfl, rfl, rfl, rfl, rfl⟩
    · show req.resource_limit.cpu_time * 1200 = _
      ring
    · show req.resource_limit.wall_time * 1200 = _
      ring
    · show (req.resource_limit.memory : ℚ) * (12 / 10) = _
      norm_num
  · intro req info
    rfl
  · refine ⟨⟨1, 0, 0, 0, 0, 0, 0, 0⟩, ⟨1000, 0, 0, 0, 0, 0, ""⟩, ?_, ?_⟩
    · norm_num [classifyStatus, mkUsage]
    · norm_num [mkUsage]

/-- Admission acquisition, `LocalExecutor::ThreadGuard::ThreadGuard`
(local_executor.cpp:239-253): under the guard mutex, an exclusive request
requires `cur == 0` and sets the counter to `max`; a shared request requires
`cur != max` and increments the counter. Failures throw
`too_many_executions` with the given messages. -/
def acquire (max : ℕ) (exclusive : Bool) (cur : ℤ) : Except String ℤ :=
  match exclusive with
  | true =>
    if cur ≠ 0 then Except.error "Exclusive execution failed: worker busy"
    else Except.ok (max : ℤ)
  | false =>
    if cur = (max : ℤ) then Except.error "Execution failed: worker busy"
    else Except.ok (cur + 1)

/-- Admission release, `LocalExecutor::ThreadGuard::~ThreadGuard`
(local_executor.cpp:255-258): an exclusive token resets the counter to
zero, a shared token decrements it. -/
def release (exclusive : Bool) (cur : ℤ) : ℤ :=
  match exclusive with
  | true => 0
  | false => cur - 1

/-- A guard state: the process-wide counter together with the outstanding
tokens (the `exclusive_` flags of the live `ThreadGuard` objects). -/
structure GuardState where
  cur : ℤ
  held : List Bool
deriving DecidableEq, Repr

/-- One admission-guard transition: a successful `ThreadGuard` construction
adds an outstanding token, a destruction removes one. -/
inductive GuardStep (max : ℕ) : GuardState → GuardState → Prop where
  | acq (excl : Bool) (cur cur' : ℤ) (held : List Bool)
      (h : acquire max excl cur = Except.ok cur') :
      GuardStep max ⟨cur, held⟩ ⟨cur', excl :: held⟩
  | rel (excl : Bool) (cur : ℤ) (pre post : List Bool) :
      GuardStep max ⟨cur, pre ++ excl :: post⟩ ⟨release excl cur, pre ++ post⟩

/-- Guard states reachable from the initial state: counter `0`, no tokens
(local_executor.cpp:269-272). -/
def GuardReachable (max : ℕ) (s : GuardState) : Prop :=
  Relation.ReflTransGen (GuardStep max) ⟨0, []⟩ s

/-- Inductive invariant of the admission guard: the counter stays within
`[0, max]`; without an exclusive holder it counts the outstanding shared
tokens, and with an exclusive holder it equals `max`, all outstanding
tokens are exclusive, and (when `max ≠ 0`) the exclusive holder is alone. -/
def GuardInv (max : ℕ) (s : GuardState) : Prop :=
  0 ≤ s.cur ∧ s.cur ≤ (max : ℤ) ∧
    (true ∉ s.held → s.cur = (s.held.length : ℤ)) ∧
    (true ∈ s.held → (∀ b ∈ s.held, b = true) ∧ s.cur = (max : ℤ) ∧
      ((max : ℤ) ≠ 0 → s.held.length = 1))

theorem guardInv_step {max : ℕ} {s t : GuardState} (hs : GuardInv max s)
    (h : GuardStep max s t) : GuardInv max t := by
  obtain ⟨h0, h1, h2, h3⟩ := hs
  cases h with
  | acq excl cur cur' held hacq =>
    have h0' : (0 : ℤ) ≤ cur := h0
    have h1' : cur ≤ (max : ℤ) := h1
    have h2' : true ∉ held → cur = (held.length : ℤ) := h2
    have h3' : true ∈ held → (∀ b ∈ held, b = true) ∧ cur = (max : ℤ) ∧
        ((max : ℤ) ≠ 0 → held.length = 1) := h3
    cases excl with
    | true =>
      have hcur : cur = 0 := by
        by_contra hc
        rw [show acquire max true cur =
              Except.error "Exclusive execution failed: worker busy" from by
            simp [acquire, hc]] at hacq
        exact Except.noConfusion hacq
      subst hcur
      have hcur' : cur' = (max : ℤ) := by
        rw [show acquire max true 0 = Except.ok (max : ℤ) from by
            simp [acquire]] at hacq
        exact (Except.ok.inj hacq).symm
      subst hcur'
      have hheld : ∀ b ∈ held, b = true := by
        intro b hb
        by_cases ht : true ∈ held
        · exact (h3' ht).1 b hb
        · have hlen0 : held.length = 0 := by exact_mod_cast (h2' ht).symm
          rw [List.length_eq_zero.mp hlen0] at hb
          exact absurd hb (List.not_mem_nil _)
      refine ⟨?_, ?_, ?_, ?_⟩
      · show (0 : ℤ) ≤ (max : ℤ)
        positivity
      · show (max : ℤ) ≤ (max : ℤ)
        exact le_refl _
      · intro hnm
        exact absurd (List.mem_cons_self _ _) hnm
      · intro _
        refine ⟨?_, rfl, ?_⟩
        · intro b hb
          rcases List.mem_cons.mp hb with hb | hb
          · exact hb
          · exact hheld b hb
        · intro hmax
          have hempty : held = [] := by
            by_cases ht : true ∈ held
            · exfalso
              exact hmax ((h3' ht).2.1.symm.trans rfl)
            · have hlen0 : held.length = 0 := by exact_mod_cast (h2' ht).symm
              exact List.length_eq_zero.mp hlen0
          simp [hempty]
    | false =>
      have hne : cur ≠ (max : ℤ) := by
        intro hc
        rw [show acquire max false cur =
              Except.error "Execution failed: worker busy" from by
            simp [acquire, hc]] at hacq
        exact Except.noConfusion hacq
      have hcur' : cur' = cur + 1 := by
        rw [show acquire max false cur = Except.ok (cur + 1) from by
            simp [acquire, hne]] at hacq
        exact (Except.ok.inj hacq).symm
      subst hcur'
      have ht : true ∉ held := fun htm => hne (h3' htm).2.1
      have hlen : cur = (held.length : ℤ) := h2' ht
      refine ⟨?_, ?_, ?_, ?_⟩
      · show (0 : ℤ) ≤ cur + 1
        omega
      · show cur + 1 ≤ (max : ℤ)
        omega
      · intro _
        show cur + 1 = (((false :: held).length : ℕ) : ℤ)
        simp only [List.length_cons]
        push_cast
        omega
      · intro hmem
        exfalso
        rcases List.mem_cons.mp hmem with hb | hb
        · exact Bool.noConfusion hb
        · exact ht hb
  | rel excl cur pre post =>
    have h0' : (0 : ℤ) ≤ cur := h0
    have h1' : cur ≤ (max : ℤ) := h1
    have h2' : true ∉ pre ++ excl :: post →
        cur = ((pre ++ excl :: post).length : ℤ) := h2
    have h3' : true ∈ pre ++ excl :: post →
        (∀ b ∈ pre ++ excl :: post, b = true) ∧ cur = (max : ℤ) ∧
        ((max : ℤ) ≠ 0 → (pre ++ excl :: post).length = 1) := h3
    cases excl with
    | true =>
      obtain ⟨hall, hcur, hlen⟩ := h3' (by simp)
      have hall' : ∀ b ∈ pre ++ post, b = true := by
        intro b hb
        refine hall b ?_
        rcases List.mem_append.mp hb with hb | hb
        · exact List.mem_append.mpr (Or.inl hb)
        · exact List.mem_append.mpr (Or.inr (List.mem_cons_of_mem _ hb))
      refine ⟨?_, ?_, ?_, ?_⟩
      · show (0 : ℤ) ≤ release true cur
        simp [release]
      · show release true cur ≤ (max : ℤ)
        simp only [release]
        positivity
      · intro hnm
        show release true cur = (((pre ++ post).length : ℕ) : ℤ)
        have hpp : pre ++ post = [] := by
          cases hq : pre ++ post with
          | nil => rfl
          | cons a l =>
            exfalso
            have ha : a = true := hall' a (by rw [hq]; exact List.mem_cons_self _ _)
            subst ha
            exact hnm (by rw [hq]; exact List.mem_cons_self _ _)
        simp [release, hpp]
      · intro hmem'
        have hmax0 : (max : ℤ) = 0 := by
          by_contra hm
          have hl1 := hlen hm
          have hne0 : pre ++ post ≠ [] := by
            intro he
            rw [he] at hmem'
            exact List.not_mem_nil _ hmem'
          have hlen0 : (pre ++ post).length = 0 := by
            simp only [List.length_append, List.length_cons] at hl1 ⊢
            omega
          exact hne0 (List.length_eq_zero.mp hlen0)
        refine ⟨hall', ?_, fun hm => absurd hmax0 hm⟩
        show release true cur = (max : ℤ)
        rw [hmax0]
        simp [release]
    | false =>
      have hf : false ∈ pre ++ false :: post := by simp
      have ht : true ∉ pre ++ false :: post := by
        intro htm
        exact Bool.noConfusion ((h3' htm).1 false hf)
      have hlen := h2' ht
      simp only [List.length_append, List.length_cons] at hlen
      push_cast at hlen
      refine ⟨?_, ?_, ?_, ?_⟩
      · show (0 : ℤ) ≤ release false cur
        simp only [release]
        omega
      · show release false cur ≤ (max : ℤ)
        simp only [release]
        omega
      · intro _
        show release false cur = (((pre ++ post).length : ℕ) : ℤ)
        simp only [release, List.length_append]
        push_cast
        omega
      · intro hmem'
        exfalso
        apply ht
        rcases List.mem_append.mp hmem' with hb | hb
        · exact List.mem_append.mpr (Or.inl hb)
        · exact List.mem_append.mpr (Or.inr (List.mem_cons_of_mem _ hb))

theorem guardInv_reachable {max : ℕ} {s : GuardState}
    (h : GuardReachable max s) : GuardInv max s := by
  induction h with
  | refl =>
    exact ⟨le_refl _, by positivity, fun _ => rfl,
      fun hm => absurd hm (List.not_mem_nil _)⟩
  | tail _ hstep ih => exact guardInv_step ih hstep

/-- Claim C2: starting from counter `0`, every sequence of admission-token
acquisitions and releases keeps the counter within `[0, max_threads]`;
exclusive acquisition fails with worker-busy exactly when the counter is
nonzero and otherwise sets it to `max_threads`; shared acquisition fails
exactly when the counter equals `max_threads` and otherwise increments it;
releasing resets the counter to zero (exclusive) or decrements it (shared). -/
theorem C2_admission_guard :
    (∀ max : ℕ, ∀ cur : ℤ, cur ≠ 0 →
      acquire max true cur = Except.error "Exclusive execution failed: worker busy") ∧
    (∀ max : ℕ, acquire max true 0 = Except.ok (max : ℤ)) ∧
    (∀ max : ℕ, ∀ cur : ℤ, cur = (max : ℤ) →
      acquire max false cur = Except.error "Execution failed: worker busy") ∧
    (∀ max : ℕ, ∀ cur : ℤ, cur ≠ (max : ℤ) →
      acquire max false cur = Except.ok (cur + 1)) ∧
    (∀ cur : ℤ, release true cur = 0) ∧
    (∀ cur : ℤ, release false cur = cur - 1) ∧
    (∀ max : ℕ, ∀ s : GuardState, GuardReachable max s →
      0 ≤ s.cur ∧ s.cur ≤ (max : ℤ)) := by
  refine ⟨?_, ?_, ?_, ?_, fun _ => rfl, fun _ => rfl, ?_⟩
  · intro max cur hc
    simp [acquire, hc]
  · intro max
    simp [acquire]
  · intro max cur hc
    simp [acquire, hc]
  · intro max cur hc
    simp [acquire, hc]
  · intro max s h
    exact ⟨(guardInv_reachable h).1, (guardInv_reachable h).2.1⟩

/-- Concrete instantiation of the hypotheses of `C2_admission_guard`:
counter `1` reached by one shared acquisition with `max_threads = 2`,
plus the acquire equations at concrete counters. -/
theorem C2_admission_guard_witness :
    acquire 2 true 1 = Except.error "Exclusive execution failed: worker busy" ∧
    acquire 2 false 2 = Except.error "Execution failed: worker busy" ∧
    acquire 2 false 0 = Except.ok 1 ∧
    (0 ≤ (GuardState.mk 1 [false]).cur ∧
      (GuardState.mk 1 [false]).cur ≤ ((2 : ℕ) : ℤ)) :=
  ⟨C2_admission_guard.1 2 1 (by decide),
   C2_admission_guard.2.2.1 2 2 (by decide),
   C2_admission_guard.2.2.2.1 2 0 (by decide),
   C2_admission_guard.2.2.2.2.2.2 2 ⟨1, [false]⟩
     (Relation.ReflTransGen.single
       (GuardStep.acq false 0 1 [] (by simp [acquire])))⟩

/-- State of `manager::EventQueue` (event_queue.hpp:162-165): the pending
events (head of the list is the front of the `std::queue`) and the
`stopped_` flag. The event payload is abstracted by a type parameter. -/
structure EventQueue (α : Type) where
  queue : List α
  stopped : Bool
deriving DecidableEq, Repr

/-- `EventQueue::Enqueue` (event_queue.cpp:5-8): push at the back,
regardless of the `stopped_` flag. -/
def enqueue {α : Type} (e : α) (s : EventQueue α) : EventQueue α :=
  { s with queue := s.queue ++ [e] }

/-- `EventQueue::Stop` (event_queue.cpp:23-26): set the `stopped_` flag. -/
def stop {α : Type} (s : EventQueue α) : EventQueue α :=
  { s with stopped := true }

/-- `EventQueue::Dequeue` (event_queue.cpp:10-21): wait until
`stopped_ || !queue_.empty()` (the result `none` models a call that stays
blocked); then return the empty optional if the queue is empty, and pop
and return the front otherwise. -/
def dequeue {α : Type} (s : EventQueue α) : Option (Option α × EventQueue α) :=
  if s.stopped || !s.queue.isEmpty then
    match s.queue with
    | [] => some (none, s)
    | e :: rest => some (some e, { s with queue := rest })
  else none

/-- Results of `n` consecutive `Dequeue` calls (stopping early if a call
would stay blocked). -/
def dequeueN {α : Type} (s : EventQueue α) : ℕ → List (Option α) × EventQueue α
  | 0 => ([], s)
  | n + 1 =>
    match dequeue s with
    | none => ([], s)
    | some (r, s') =>
      let p := dequeueN s' n
      (r :: p.1, p.2)

theorem dequeueN_stopped {α : Type} (q : List α) (n : ℕ) :
    dequeueN (⟨q, true⟩ : EventQueue α) n =
      ((q.take n).map some ++ List.replicate (n - q.length) none,
        ⟨q.drop n, true⟩) := by
  induction n generalizing q with
  | zero => simp [dequeueN]
  | succ n ih =>
    cases q with
    | nil =>
      simp [dequeueN, dequeue, ih, List.replicate_succ]
    | cons e rest =>
      simp [dequeueN, dequeue, ih rest, Nat.succ_sub_succ]

/-- Claim C8: a `Dequeue` on a non-empty queue always pops and returns the
front event, stopped or not; once `Stop()` has been observed, `Dequeue`
never blocks, returns the empty optional exactly when the queue is empty,
and consecutive calls drain the remaining events one per call in FIFO
enqueue order. -/
theorem C8_event_queue_drain :
    (∀ (α : Type) (st : Bool) (e : α) (rest : List α),
      dequeue (⟨e :: rest, st⟩ : EventQueue α) = some (some e, ⟨rest, st⟩)) ∧
    (∀ (α : Type) (st : Bool) (q : List α),
      dequeue (stop (⟨q, st⟩ : EventQueue α)) =
          some (none, stop (⟨q, st⟩ : EventQueue α)) ↔ q = []) ∧
    (∀ (α : Type) (st : Bool) (q : List α) (n : ℕ),
      (dequeueN (stop (⟨q, st⟩ : EventQueue α)) n).1 =
        (q.take n).map some ++ List.replicate (n - q.length) none) := by
  refine ⟨?_, ?_, ?_⟩
  · intro α st e rest
    simp [dequeue]
  · intro α st q
    constructor
    · intro h
      cases q with
      | nil => rfl
      | cons e rest => simp [dequeue, stop] at h
    · intro h
      subst h
      simp [dequeue, stop]
  · intro α st q n
    show (dequeueN (⟨q, true⟩ : EventQueue α) n).1 = _
    rw [dequeueN_stopped]

/-- Claim C9: `Enqueue` succeeds after `Stop()`: the event is appended to
the queue and is returned by a subsequent `Dequeue` before `Dequeue`
reports empty. -/
theorem C9_enqueue_after_stop :
    (∀ (α : Type) (e : α) (s : EventQueue α),
      enqueue e s = ⟨s.queue ++ [e], s.stopped⟩) ∧
    (∀ (α : Type) (e : α) (st : Bool) (q : List α),
      (dequeueN (enqueue e (stop (⟨q, st⟩ : EventQueue α))) (q.length + 1)).1 =
        (q ++ [e]).map some ∧
      dequeue ((dequeueN (enqueue e (stop (⟨q, st⟩ : EventQueue α)))
          (q.length + 1)).2) =
        some (none, ⟨[], true⟩)) := by
  refine ⟨fun α e s => rfl, ?_⟩
  intro α e st q
  have he : enqueue e (stop (⟨q, st⟩ : EventQueue α)) =
      (⟨q ++ [e], true⟩ : EventQueue α) := rfl
  rw [he, dequeueN_stopped]
  constructor
  · simp
  · simp [dequeue]

/-- State of the shared-memory queue `SharedQueue<T>` (ipc.hpp:86-94): the
fixed capacity `size_`, the element counter `*current_size_`, and the
contents of the `data_` buffer, modelled as a map from slot index to
value. -/
structure SharedQueueState (α : Type) where
  size : ℕ
  current_size : ℕ
  data : ℕ → α

/-- `SharedQueue::Enqueue` (ipc.hpp:70-79): wait while the queue is full
(the result `none` models a blocked call), then store the element at slot
`current_size_` and increment the counter. -/
def sqEnqueue {α : Type} (q : SharedQueueState α) (x : α) :
    Option (SharedQueueState α) :=
  if q.current_size = q.size then none
  else some { q with data := Function.update q.data q.current_size x,
                     current_size := q.current_size + 1 }

/-- `SharedQueue::Dequeue` (ipc.hpp:59-68): wait while the queue is empty
(the result `none` models a blocked call), then decrement the counter and
read the element at the slot just vacated, `data_[current_size_]` after
the decrement. -/
def sqDequeue {α : Type} (q : SharedQueueState α) :
    Option (α × SharedQueueState α) :=
  if q.current_size = 0 then none
  else some (q.data (q.current_size - 1),
    { q with current_size := q.current_size - 1 })

/-- Claim C3, evaluated at the failing input: on a capacity-2 shared queue,
after `Enqueue 10` then `Enqueue 20`, the first `Dequeue` returns `20`,
the most recently enqueued element, not the first-enqueued `10`: the
buffer is a LIFO stack, not a FIFO. -/
theorem C3_shared_queue_is_lifo :
    ∃ q1 q2 q3 : SharedQueueState ℕ,
      sqEnqueue (⟨2, 0, fun _ => 0⟩ : SharedQueueState ℕ) 10 = some q1 ∧
      sqEnqueue q1 20 = some q2 ∧
      sqDequeue q2 = some (20, q3) ∧ (20 : ℕ) ≠ 10 := by
  refine ⟨⟨2, 1, Function.update (fun _ => 0) 0 10⟩,
    ⟨2, 2, Function.update (Function.update (fun _ => 0) 0 10) 1 20⟩,
    ⟨2, 1, Function.update (Function.update (fun _ => 0) 0 10) 1 20⟩,
    ?_, ?_, ?_, by decide⟩
  · simp [sqEnqueue]
  · simp [sqEnqueue]
  · simp [sqDequeue]

/-- Characters illegal in a user file name (local_executor.cpp:13):
the path separator and NUL. -/
def isIllegalChar (c : Char) : Bool := c == '/' || c == '\x00'

/-- The illegal-name test of `PrepareFile`/`RetrieveFile`
(local_executor.cpp:169,192): some character of the name is illegal. -/
def hasIllegalName (name : String) : Bool := name.toList.any isIllegalChar

/-- Filesystem error kind, distinguishing the
`errc::no_such_file_or_directory` code tested at local_executor.cpp:148-150
from every other code. -/
inductive FsErr where
  | notFound
  | other (msg : String)
deriving DecidableEq, Repr

/-- Errors thrown by `LocalExecutor::Execute` and its helpers, keyed by
throw site: the FIFO `std::logic_error` (line 21), the invalid-file-name
`std::runtime_error` (lines 170 and 193), the sandbox failure
`std::runtime_error` (lines 89 and 95), the admission `too_many_executions`
(lines 244 and 249), and propagated filesystem `std::system_error`. -/
inductive ExecError where
  | notImplemented (msg : String)
  | invalidFileName (msg : String)
  | sandboxFailure (msg : String)
  | workerBusy (msg : String)
  | ioError (e : FsErr)
deriving DecidableEq, Repr

/-- Externally visible side effects of `LocalExecutor::Execute`, in program
order: a blob written into the content-addressed store by
`MaybeRequestFile` (lines 205-218), the `util::TempDir` creation (line 28),
the `command.txt` write under `keep_sandbox` (lines 34-38), the
`MakeDirs(sandbox_dir)` call (line 45), an input copied into the workspace
by `PrepareFile` (line 177), `PrepareForExecution` (line 86),
`sb->Execute` (line 94), and an output copied into the store by
`RetrieveFile` (line 200). -/
inductive Effect where
  | storeWrite (hash : ℕ)
  | tempDirCreate
  | commandFileWrite
  | sandboxDirCreate
  | stageFile (name : String)
  | prepareExecutable (path : String)
  | sandboxExecute
  | ingestFile (name : String)
deriving DecidableEq, Repr

/-- Behaviour of the opaque `sandbox::Sandbox` collaborator: the results of
`PrepareForExecution` and `Execute`, each succeeding or yielding an error
message. -/
structure SandboxModel where
  prepare : String → Except String Unit
  run : ExecutionOptions → Except String ExecutionInfo

/-- Store writes performed by the input-materialization loop
(local_executor.cpp:23-25) via `MaybeRequestFile` (lines 205-218): one
write per input blob absent from the store, in input order. -/
def fetchEffects (store : ℕ → Bool) (inputs : List FileInfo) : List Effect :=
  (inputs.filter fun i => !store i.hash).map fun i => Effect.storeWrite i.hash

/-- Effective target name computed by `LocalExecutor::PrepareFile`
(local_executor.cpp:160-181): `stdin` for STDIN inputs; any other input
has its name validated against illegal characters and is placed inside
the `box` subdirectory. -/
def prepareFileName (info : FileInfo) : Except ExecError String :=
  if info.type = FileType.STDIN then Except.ok "stdin"
  else if hasIllegalName info.name then
    Except.error (ExecError.invalidFileName ("Invalid file name: " ++ info.name))
  else Except.ok ("box/" ++ info.name)

/-- Staging loop of `LocalExecutor::Execute` (local_executor.cpp:67-76):
each input is copied into the workspace by `PrepareFile`, stopping at the
first invalid file name. Returns the copy effects performed before any
failure, and the error if one was thrown. -/
def stageInputs : List FileInfo → List Effect × Option ExecError
  | [] => ([], none)
  | info :: rest =>
    match prepareFileName info with
    | Except.error e => ([], some e)
    | Except.ok name =>
      let p := stageInputs rest
      (Effect.stageFile name :: p.1, p.2)

/-- Effective source name computed by `LocalExecutor::RetrieveFile`
(local_executor.cpp:186-196): `stdout`/`stderr` for those types, otherwise
the name validated against illegal characters inside `box`. -/
def retrieveFileName (info : FileInfo) : Except ExecError String :=
  if info.type = FileType.STDOUT then Except.ok "stdout"
  else if info.type = FileType.STDERR then Except.ok "stderr"
  else if hasIllegalName info.name then
    Except.error (ExecError.invalidFileName "Invalid file name")
  else Except.ok ("box/" ++ info.name)

/-- One `RetrieveFile` call (local_executor.cpp:183-203): hash the file in
the workspace (`outFs` gives the content hash, or the filesystem error a
missing or unreadable file raises as `std::system_error`), copy it into
the store, and append the `FileInfo` with its hash to the response's
output list. -/
def retrieveFile (outFs : String → Except FsErr ℕ) (info : FileInfo)
    (resp : Response) : List Effect × Except ExecError Response :=
  match retrieveFileName info with
  | Except.error e => ([], Except.error e)
  | Except.ok name =>
    match outFs name with
    | Except.error e => ([], Except.error (ExecError.ioError e))
    | Except.ok h =>
      ([Effect.ingestFile name],
        Except.ok { resp with output := resp.output ++ [{ info with hash := h }] })

/-- Declared-output extraction loop of `LocalExecutor::Execute`
(local_executor.cpp:144-156): each declared output is retrieved; a
`no_such_file_or_directory` system error is swallowed, demoting a
`SUCCESS` status to `MISSING_FILES` with message "Missing output files";
every other error propagates out of the loop. -/
def retrieveOutputs (outFs : String → Except FsErr ℕ) :
    List FileInfo → Response → List Effect × Except ExecError Response
  | [], resp => ([], Except.ok resp)
  | info :: rest, resp =>
    match retrieveFile outFs info resp with
    | (effs, Except.ok resp') =>
      let p := retrieveOutputs outFs rest resp'
      (effs ++ p.1, p.2)
    | (effs, Except.error (ExecError.ioError FsErr.notFound)) =>
      let resp' := if resp.status = Status.SUCCESS then
          { resp with status := Status.MISSING_FILES,
                      error_message := "Missing output files" }
        else resp
      let p := retrieveOutputs outFs rest resp'
      (effs ++ p.1, p.2)
    | (effs, Except.error e) => (effs, Except.error e)

/-- The fresh `proto::FileInfo` used for the stdout/stderr retrieval
(local_executor.cpp:139-143): default fields with only the type set. -/
def stdioInfo (t : FileType) : FileInfo :=
  { name := "", type := t, hash := 0, executable := false, hasContents := false }

/-- Output extraction of `LocalExecutor::Execute` (local_executor.cpp:138-156):
stdout and stderr are retrieved outside any error handling, then the
declared outputs with the missing-file tolerance. -/
def extractOutputs (outFs : String → Except FsErr ℕ) (outputs : List FileInfo)
    (resp : Response) : List Effect × Except ExecError Response :=
  match retrieveFile outFs (stdioInfo FileType.STDOUT) resp with
  | (effs, Except.error e) => (effs, Except.error e)
  | (effs, Except.ok resp1) =>
    match retrieveFile outFs (stdioInfo FileType.STDERR) resp1 with
    | (effs2, Except.error e) => (effs ++ effs2, Except.error e)
    | (effs2, Except.ok resp2) =>
      let p := retrieveOutputs outFs outputs resp2
      (effs ++ effs2 ++ p.1, p.2)

/-- Trace-level model of `LocalExecutor::Execute` (local_executor.cpp:18-158).
The collaborators are parameters: `store` says which blobs are already in
the content-addressed store, `sb` is the sandbox, `guardOk` says whether
admission succeeds, `outFs` maps a workspace file name to its content hash
after the run. Returns the effects performed, in program order, together
with the response returned or the error thrown. -/
def executeModel (store : ℕ → Bool) (sb : SandboxModel) (guardOk : Bool)
    (outFs : String → Except FsErr ℕ) (req : Request) :
    List Effect × Except ExecError Response :=
  if req.fifo_size ≠ 0 then
    ([], Except.error (ExecError.notImplemented "FIFOs are not implemented yet"))
  else
    let fetchEffs := fetchEffects store req.input
    let setupEffs := [Effect.tempDirCreate] ++
      (if req.keep_sandbox then [Effect.commandFileWrite] else []) ++
      [Effect.sandboxDirCreate]
    let staged := stageInputs req.input
    let pre := fetchEffs ++ setupEffs ++ staged.1
    match staged.2 with
    | some e => (pre, Except.error e)
    | none =>
      let opts := { mkExecOptions req "box" with
        stdin_file := if req.input.any (fun i => i.type = FileType.STDIN)
          then "stdin" else "",
        stdout_file := "stdout",
        stderr_file := "stderr" }
      let loaded := req.input.any fun i => i.name = req.executable
      let prepEffs := if loaded
        then [Effect.prepareExecutable ("box/" ++ req.executable)] else []
      match (if loaded then sb.prepare ("box/" ++ req.executable)
             else Except.ok ()) with
      | Except.error msg =>
        (pre ++ prepEffs, Except.error (ExecError.sandboxFailure msg))
      | Except.ok _ =>
        if guardOk = false then
          (pre ++ prepEffs, Except.error (ExecError.workerBusy
            (if req.exclusive then "Exclusive execution failed: worker busy"
             else "Execution failed: worker busy")))
        else
          match sb.run opts with
          | Except.error msg =>
            (pre ++ prepEffs ++ [Effect.sandboxExecute],
              Except.error (ExecError.sandboxFailure msg))
          | Except.ok info =>
            let p := extractOutputs outFs req.output (mkResponse req info)
            (pre ++ prepEffs ++ [Effect.sandboxExecute] ++ p.1, p.2)

theorem prepareFileName_error {info : FileInfo} {e : ExecError}
    (h : prepareFileName info = Except.error e) :
    ∃ msg, e = ExecError.invalidFileName msg := by
  unfold prepareFileName at h
  split_ifs at h with h1 h2
  exact ⟨_, (Except.error.inj h).symm⟩

theorem stageInputs_illegal {inputs : List FileInfo}
    (h : ∃ i ∈ inputs, i.type ≠ FileType.STDIN ∧ hasIllegalName i.name = true) :
    ∃ msg, (stageInputs inputs).2 = some (ExecError.invalidFileName msg) := by
  induction inputs with
  | nil => simp at h
  | cons a rest ih =>
    obtain ⟨i, hi, hty, hill⟩ := h
    cases hpf : prepareFileName a with
    | error e =>
      obtain ⟨msg, rfl⟩ := prepareFileName_error hpf
      exact ⟨msg, by simp [stageInputs, hpf]⟩
    | ok name =>
      rcases List.mem_cons.mp hi with rfl | hi'
      · exfalso
        unfold prepareFileName at hpf
        rw [if_neg hty, if_pos hill] at hpf
        exact Except.noConfusion hpf
      · obtain ⟨msg, hmsg⟩ := ih ⟨i, hi', hty, hill⟩
        exact ⟨msg, by simp [stageInputs, hpf, hmsg]⟩

theorem fetchEffects_no_sandboxExecute (store : ℕ → Bool)
    (inputs : List FileInfo) :
    Effect.sandboxExecute ∉ fetchEffects store inputs := by
  simp [fetchEffects]

theorem stageInputs_no_sandboxExecute (inputs : List FileInfo) :
    Effect.sandboxExecute ∉ (stageInputs inputs).1 := by
  induction inputs with
  | nil => simp [stageInputs]
  | cons a rest ih =>
    cases hpf : prepareFileName a with
    | error e => simp [stageInputs, hpf]
    | ok name => simpa [stageInputs, hpf] using ih

/-- Claim C7: a request containing a USER-type input file whose name has an
illegal character aborts with an error before `sandbox.Execute` is ever
invoked: the result is an error and the effect trace never contains the
sandbox execution. -/
theorem C7_illegal_name_aborts_before_sandbox :
    ∀ (store : ℕ → Bool) (sb : SandboxModel) (guardOk : Bool)
      (outFs : String → Except FsErr ℕ) (req : Request),
      (∃ i ∈ req.input, i.type = FileType.USER ∧ hasIllegalName i.name = true) →
      (∃ e, (executeModel store sb guardOk outFs req).2 = Except.error e) ∧
      Effect.sandboxExecute ∉ (executeModel store sb guardOk outFs req).1 := by
  intro store sb guardOk outFs req h
  by_cases hf : req.fifo_size = 0
  case neg =>
    constructor
    · exact ⟨ExecError.notImplemented "FIFOs are not implemented yet",
        by simp [executeModel, hf]⟩
    · simp [executeModel, hf]
  case pos =>
    obtain ⟨i, hi, hty, hill⟩ := h
    obtain ⟨msg, hmsg⟩ := stageInputs_illegal ⟨i, hi, by simp [hty], hill⟩
    constructor
    · exact ⟨ExecError.invalidFileName msg, by simp [executeModel, hf, hmsg]⟩
    · intro hmem
      simp only [executeModel, hf] at hmem
      simp only [if_neg (by simp : ¬(0 : ℕ) ≠ 0), hmsg] at hmem
      rcases List.mem_append.mp hmem with hmem | hmem
      · rcases List.mem_append.mp hmem with hmem | hmem
        · exact fetchEffects_no_sandboxExecute store req.input hmem
        · rcases List.mem_append.mp hmem with hmem | hmem
          · rcases List.mem_append.mp hmem with hmem | hmem
            · simp at hmem
            · cases hk : req.keep_sandbox <;> simp [hk] at hmem
          · simp at hmem
      · exact stageInputs_no_sandboxExecute req.input hmem

/-- An empty content-addressed store: every blob is absent. -/
def emptyStore : ℕ → Bool := fun _ => false

/-- A sandbox collaborator that always succeeds with a clean run. -/
def okSandbox : SandboxModel :=
  { prepare := fun _ => Except.ok ()
    run := fun _ => Except.ok ⟨0, 0, 0, 0, 0, 0, ""⟩ }

/-- A workspace in which every file exists, with content hash 0. -/
def allFilesFs : String → Except FsErr ℕ := fun _ => Except.ok 0

/-- The illegal USER input file named `a/b`. -/
def illegalFile : FileInfo :=
  { name := "a/b", type := FileType.USER, hash := 0,
    executable := false, hasContents := true }

/-- A request whose single input is the illegal USER file `a/b`. -/
def illegalReq : Request :=
  { executable := "exe"
    args := []
    input := [illegalFile]
    output := []
    resource_limit := ⟨0, 0, 0, 0, 0, 0, 0, 0⟩
    fifo_size := 0
    exclusive := false
    keep_sandbox := false }

/-- Concrete instantiation of the hypothesis of
`C7_illegal_name_aborts_before_sandbox`. -/
theorem C7_illegal_name_aborts_before_sandbox_witness :
    (∃ e, (executeModel emptyStore okSandbox true allFilesFs illegalReq).2 =
        Except.error e) ∧
    Effect.sandboxExecute ∉
      (executeModel emptyStore okSandbox true allFilesFs illegalReq).1 :=
  C7_illegal_name_aborts_before_sandbox emptyStore okSandbox true allFilesFs
    illegalReq ⟨illegalFile, by simp [illegalReq], rfl, by decide⟩

/-- Claim C4 refuted at a concrete input: for the single-input request with
the illegal USER name `a/b` and an empty store, execute does reject the
request, but only after the absent input blob has been written into the
content-addressed store and the temp directory has been created: the trace
preceding the rejection is not free of filesystem work. -/
theorem C4_counterexample_fs_work_before_rejection :
    executeModel emptyStore okSandbox true allFilesFs illegalReq =
      ([Effect.storeWrite 0, Effect.tempDirCreate, Effect.sandboxDirCreate],
        Except.error (ExecError.invalidFileName "Invalid file name: a/b")) ∧
    Effect.tempDirCreate ∈
      (executeModel emptyStore okSandbox true allFilesFs illegalReq).1 ∧
    Effect.storeWrite 0 ∈
      (executeModel emptyStore okSandbox true allFilesFs illegalReq).1 := by
  have h : executeModel emptyStore okSandbox true allFilesFs illegalReq =
      ([Effect.storeWrite 0, Effect.tempDirCreate, Effect.sandboxDirCreate],
        Except.error (ExecError.invalidFileName "Invalid file name: a/b")) := by
    rfl
  refine ⟨h, ?_, ?_⟩ <;> rw [h] <;> simp

/-- Claim C4 as amended: for every FIFO-free request containing a USER-type
input with an illegal name, execute surfaces the invalid-file-name error
and the sandbox never runs, but the temp directory is created (and absent
input blobs are fetched into the store) before the rejection. -/
theorem C4_invalid_name_rejected_after_setup :
    ∀ (store : ℕ → Bool) (sb : SandboxModel) (guardOk : Bool)
      (outFs : String → Except FsErr ℕ) (req : Request),
      req.fifo_size = 0 →
      (∃ i ∈ req.input, i.type = FileType.USER ∧ hasIllegalName i.name = true) →
      (∃ msg, (executeModel store sb guardOk outFs req).2 =
          Except.error (ExecError.invalidFileName msg)) ∧
      Effect.tempDirCreate ∈ (executeModel store sb guardOk outFs req).1 ∧
      Effect.sandboxExecute ∉ (executeModel store sb guardOk outFs req).1 := by
  intro store sb guardOk outFs req hf h
  obtain ⟨i, hi, hty, hill⟩ := h
  obtain ⟨msg, hmsg⟩ := stageInputs_illegal ⟨i, hi, by simp [hty], hill⟩
  refine ⟨⟨msg, by simp [executeModel, hf, hmsg]⟩, ?_,
    (C7_illegal_name_aborts_before_sandbox store sb guardOk outFs req
      ⟨i, hi, hty, hill⟩).2⟩
  simp [executeModel, hf, hmsg]

/-- Concrete instantiation of the hypotheses of
`C4_invalid_name_rejected_after_setup`. -/
theorem C4_invalid_name_rejected_after_setup_witness :
    (∃ msg, (executeModel emptyStore okSandbox true allFilesFs illegalReq).2 =
        Except.error (ExecError.invalidFileName msg)) ∧
    Effect.tempDirCreate ∈
      (executeModel emptyStore okSandbox true allFilesFs illegalReq).1 ∧
    Effect.sandboxExecute ∉
      (executeModel emptyStore okSandbox true allFilesFs illegalReq).1 :=
  C4_invalid_name_rejected_after_setup emptyStore okSandbox true allFilesFs
    illegalReq rfl ⟨illegalFile, by simp [illegalReq], rfl, by decide⟩

/-- Claim C5: during declared-output extraction, a not-found error on a
declared output is swallowed; the status is demoted to `MISSING_FILES`
with message "Missing output files" exactly when the status so far is
`SUCCESS` (an already-failing status is left unchanged), and every other
I/O error propagates out of the loop. -/
theorem C5_missing_output_tolerance :
    (∀ (outFs : String → Except FsErr ℕ) (info : FileInfo)
        (rest : List FileInfo) (resp : Response) (name : String),
      retrieveFileName info = Except.ok name →
      outFs name = Except.error FsErr.notFound →
      retrieveOutputs outFs (info :: rest) resp =
        retrieveOutputs outFs rest
          (if resp.status = Status.SUCCESS then
            { resp with status := Status.MISSING_FILES,
                        error_message := "Missing output files" }
           else resp)) ∧
    (∀ (outFs : String → Except FsErr ℕ) (info : FileInfo)
        (rest : List FileInfo) (resp : Response) (name msg : String),
      retrieveFileName info = Except.ok name →
      outFs name = Except.error (FsErr.other msg) →
      (retrieveOutputs outFs (info :: rest) resp).2 =
        Except.error (ExecError.ioError (FsErr.other msg))) := by
  constructor
  · intro outFs info rest resp name h1 h2
    simp [retrieveOutputs, retrieveFile, h1, h2]
  · intro outFs info rest resp name msg h1 h2
    simp [retrieveOutputs, retrieveFile, h1, h2]

/-- A successful response fixture. -/
def successResp : Response :=
  { resource_usage := ⟨0, 0, 0, 0⟩
    status := Status.SUCCESS
    status_code := 0
    signal := 0
    error_message := ""
    output := [] }

/-- The declared output file `out.txt`. -/
def outFile : FileInfo :=
  { name := "out.txt", type := FileType.USER, hash := 0,
    executable := false, hasContents := false }

/-- Concrete instantiation of the hypotheses of
`C5_missing_output_tolerance`. -/
theorem C5_missing_output_tolerance_witness :
    retrieveOutputs (fun _ => Except.error FsErr.notFound) [outFile]
        successResp =
      retrieveOutputs (fun _ => Except.error FsErr.notFound) []
        (if successResp.status = Status.SUCCESS then
          { successResp with status := Status.MISSING_FILES,
                             error_message := "Missing output files" }
         else successResp) ∧
    (retrieveOutputs (fun _ => Except.error (FsErr.other "disk")) [outFile]
        successResp).2 =
      Except.error (ExecError.ioError (FsErr.other "disk")) :=
  ⟨C5_missing_output_tolerance.1 (fun _ => Except.error FsErr.notFound)
      outFile [] successResp "box/out.txt" rfl rfl,
   C5_missing_output_tolerance.2 (fun _ => Except.error (FsErr.other "disk"))
      outFile [] successResp "box/out.txt" "disk" rfl rfl⟩

/-- Claim C10: the missing-file tolerance covers only the declared output
files; a missing stdout or stderr after the run makes extraction propagate
the not-found error as an exception rather than produce a `MISSING_FILES`
response. -/
theorem C10_stdio_not_found_propagates :
    (∀ (outFs : String → Except FsErr ℕ) (outputs : List FileInfo)
        (resp : Response),
      outFs "stdout" = Except.error FsErr.notFound →
      (extractOutputs outFs outputs resp).2 =
        Except.error (ExecError.ioError FsErr.notFound)) ∧
    (∀ (outFs : String → Except FsErr ℕ) (outputs : List FileInfo)
        (resp : Response) (h : ℕ),
      outFs "stdout" = Except.ok h →
      outFs "stderr" = Except.error FsErr.notFound →
      (extractOutputs outFs outputs resp).2 =
        Except.error (ExecError.ioError FsErr.notFound)) := by
  constructor
  · intro outFs outputs resp h1
    simp [extractOutputs, retrieveFile, retrieveFileName, stdioInfo, h1]
  · intro outFs outputs resp h h1 h2
    simp [extractOutputs, retrieveFile, retrieveFileName, stdioInfo, h1, h2]

/-- Concrete instantiation of the hypotheses of
`C10_stdio_not_found_propagates`. -/
theorem C10_stdio_not_found_propagates_witness :
    (extractOutputs (fun n => if n = "stdout" then Except.error FsErr.notFound
        else Except.ok 0) [] successResp).2 =
      Except.error (ExecError.ioError FsErr.notFound) ∧
    (extractOutputs (fun n => if n = "stderr" then Except.error FsErr.notFound
        else Except.ok 0) [] successResp).2 =
      Except.error (ExecError.ioError FsErr.notFound) :=
  ⟨C10_stdio_not_found_propagates.1 _ [] successResp rfl,
   C10_stdio_not_found_propagates.2 _ [] successResp 0 rfl rfl⟩

end TaskMaker
